import Mathlib

/-!
Shallow embedding of the per-segment time-tracking engine of
`src/time_tracker.py` (class `EditingSession`, class `TimeTracker`).

Modelling conventions:
* Wall-clock instants (`datetime`) and float durations are modelled as `ℚ`.
  Every method of the Python class reads `datetime.now()` once; here each
  operation takes that instant as an explicit `now : ℚ` argument.
* Segment identifiers are non-negative integers (`Nat`), matching the
  documented domain of segment ids.
* The Python `dict` of sessions is modelled as an insertion-ordered
  association list `List (Nat × EditingSession)`; lookup returns the first
  binding, update rewrites the bindings of the given key in place, and
  `start_segment` appends a fresh binding at the end, exactly as a Python
  dict behaves for the unique-key maps the tracker builds.
* `get_editing_time` performs no assignment in the source; its embedding
  threads the state explicitly and returns it unchanged alongside the value.
-/

/-- Embedding of the dataclass `EditingSession` of `src/time_tracker.py`. -/
structure EditingSession where
  start_time : ℚ
  pause_time : Option ℚ
  total_paused_time : ℚ
  is_paused : Bool
  last_activity : ℚ
  active_time : ℚ
  idle_time : ℚ
deriving DecidableEq, Repr

/-- Embedding of the class `TimeTracker`: its single attribute is the
dict `self.sessions`, modelled as an association list. -/
structure TimeTracker where
  sessions : List (Nat × EditingSession)
deriving DecidableEq, Repr

/-- Dict lookup, first binding wins (Python `self.sessions[segment_id]`,
and the membership test `segment_id in self.sessions`). -/
def lookupSession (l : List (Nat × EditingSession)) (i : Nat) : Option EditingSession :=
  match l with
  | [] => none
  | (k, s) :: rest => if k = i then some s else lookupSession rest i

/-- In-place mutation of the session stored under key `i` (Python mutates
the object held in the dict; keys are unique in every dict). -/
def updateSession (l : List (Nat × EditingSession)) (i : Nat)
    (f : EditingSession → EditingSession) : List (Nat × EditingSession) :=
  l.map fun p => if p.1 = i then (p.1, f p.2) else p

/-- The class constant `TimeTracker.IDLE_THRESHOLD = 30` (seconds). -/
def IDLE_THRESHOLD : ℚ := 30

/-- The empty tracker built by `TimeTracker.__init__`. -/
def TimeTracker.empty : TimeTracker := ⟨[]⟩

/-- Embedding of `TimeTracker.start_segment` (lines 45-52): create a fresh
session only when the id is absent; the fresh session has
`start_time = last_activity = now` and dataclass defaults elsewhere. -/
def TimeTracker.start_segment (t : TimeTracker) (segment_id : Nat) (now : ℚ) : TimeTracker :=
  match lookupSession t.sessions segment_id with
  | some _ => t
  | none =>
      ⟨t.sessions ++ [(segment_id,
        { start_time := now
          pause_time := none
          total_paused_time := 0
          is_paused := false
          last_activity := now
          active_time := 0
          idle_time := 0 })]⟩

/-- Embedding of `TimeTracker.pause_segment` (lines 54-67). -/
def TimeTracker.pause_segment (t : TimeTracker) (segment_id : Nat) (now : ℚ) : TimeTracker :=
  match lookupSession t.sessions segment_id with
  | none => t
  | some s =>
      if s.is_paused then t
      else
        let s1 := if now - s.last_activity ≤ IDLE_THRESHOLD
          then { s with active_time := s.active_time + (now - s.last_activity) }
          else s
        ⟨updateSession t.sessions segment_id fun _ =>
          { s1 with pause_time := some now, is_paused := true, last_activity := now }⟩

/-- Embedding of `TimeTracker.resume_segment` (lines 69-81); the Python
truthiness test `if session.pause_time:` holds exactly when the field is
not `None` (datetime objects are always truthy). -/
def TimeTracker.resume_segment (t : TimeTracker) (segment_id : Nat) (now : ℚ) : TimeTracker :=
  match lookupSession t.sessions segment_id with
  | none => t
  | some s =>
      if s.is_paused then
        let s1 := match s.pause_time with
          | some pt => { s with total_paused_time := s.total_paused_time + (now - pt) }
          | none => s
        ⟨updateSession t.sessions segment_id fun _ =>
          { s1 with is_paused := false, pause_time := none, last_activity := now }⟩
      else t

/-- Embedding of `TimeTracker.update_activity` (lines 83-99). Note that the
assignment `session.last_activity = current_time` on line 99 sits outside
the `if not session.is_paused:` block and therefore runs even when the
session is paused. -/
def TimeTracker.update_activity (t : TimeTracker) (segment_id : Nat) (now : ℚ) : TimeTracker :=
  match lookupSession t.sessions segment_id with
  | none => t
  | some s =>
      let s1 :=
        if s.is_paused then s
        else
          if now - s.last_activity > IDLE_THRESHOLD then
            { s with idle_time := s.idle_time + (now - s.last_activity - IDLE_THRESHOLD) }
          else
            { s with active_time := s.active_time + (now - s.last_activity) }
      ⟨updateSession t.sessions segment_id fun _ => { s1 with last_activity := now }⟩

/-- Embedding of `TimeTracker.get_editing_time` (lines 101-115). The method
body contains no assignment, so the explicit-state embedding returns the
tracker unchanged at each of the three Python return points. -/
def TimeTracker.get_editing_time (t : TimeTracker) (segment_id : Nat) (now : ℚ) :
    ℚ × TimeTracker :=
  match lookupSession t.sessions segment_id with
  | none => (0, t)
  | some s =>
      if s.is_paused = false then
        if now - s.last_activity ≤ IDLE_THRESHOLD then
          (s.active_time + (now - s.last_activity), t)
        else (s.active_time, t)
      else (s.active_time, t)

/-- Embedding of `TimeTracker.check_idle_time` (lines 136-156); the
`st.warning` call is display-only and touches no tracker state. -/
def TimeTracker.check_idle_time (t : TimeTracker) (segment_id : Nat) (now : ℚ) : TimeTracker :=
  match lookupSession t.sessions segment_id with
  | none => t
  | some s =>
      if s.is_paused then t
      else
        if now - s.last_activity > IDLE_THRESHOLD then
          let new_idle := now - s.last_activity - IDLE_THRESHOLD
          if new_idle > s.idle_time then
            ⟨updateSession t.sessions segment_id fun _ => { s with idle_time := new_idle }⟩
          else t
        else t

/-!
Operations as a reified event alphabet, so that statements can quantify
over arbitrary sequences of documented operations.  `Op.time` is the value
`datetime.now()` reads when the operation runs.
-/

/-- One documented mutating operation together with the instant at which it
runs. -/
inductive Op where
  | start (id : Nat) (now : ℚ)
  | pause (id : Nat) (now : ℚ)
  | resume (id : Nat) (now : ℚ)
  | activity (id : Nat) (now : ℚ)
  | checkIdle (id : Nat) (now : ℚ)
deriving DecidableEq, Repr

/-- The wall-clock instant at which an operation runs. -/
def Op.time : Op → ℚ
  | Op.start _ n => n
  | Op.pause _ n => n
  | Op.resume _ n => n
  | Op.activity _ n => n
  | Op.checkIdle _ n => n

/-- Run one operation against the tracker. -/
def Op.apply (t : TimeTracker) : Op → TimeTracker
  | Op.start i n => t.start_segment i n
  | Op.pause i n => t.pause_segment i n
  | Op.resume i n => t.resume_segment i n
  | Op.activity i n => t.update_activity i n
  | Op.checkIdle i n => t.check_idle_time i n

/-- Run a sequence of operations left to right. -/
def applyOps (t : TimeTracker) (ops : List Op) : TimeTracker :=
  ops.foldl Op.apply t

/-- The instants of the operations are non-decreasing and all at or after
the lower bound `c` (callers must not supply out-of-order timestamps). -/
def opsMono (c : ℚ) : List Op → Bool
  | [] => true
  | o :: rest => decide (c ≤ o.time) && opsMono o.time rest

/-- Trackers reachable from the empty tracker through the documented
operations, driven by a non-decreasing wall clock. -/
def Reachable (t : TimeTracker) : Prop :=
  ∃ c ops, opsMono c ops = true ∧ applyOps TimeTracker.empty ops = t

/-!
Serialization layer.  `to_dict` stores native Python values (datetimes,
floats, bools, None) in nested dicts for the document store; `from_dict`
reads them back without any type validation, exactly as the source does.
`PyVal` models the dynamically-typed values such a snapshot can hold.
-/

/-- Dynamically-typed Python value as stored in a snapshot dict. -/
inductive PyVal where
  | vNone
  | vBool (b : Bool)
  | vFloat (q : ℚ)
  | vDatetime (d : ℚ)
  | vStr (s : String)
  | vDict (entries : List (String × PyVal))

/-- Exception kinds that Python deserialization code can raise. -/
inductive PyErr where
  | keyError (k : String)
  | valueError (msg : String)
  | typeError (msg : String)
  | attributeError (msg : String)
deriving DecidableEq, Repr

/-- String-keyed dict lookup (first binding wins; dict keys are unique). -/
def dictGet (l : List (String × PyVal)) (k : String) : Option PyVal :=
  match l with
  | [] => none
  | (k2, v) :: rest => if k2 = k then some v else dictGet rest k

/-- Result of `EditingSession.from_dict`: Python performs no type checks,
so every field merely holds whatever value the snapshot supplied. -/
structure DynSession where
  start_time : PyVal
  pause_time : PyVal
  total_paused_time : PyVal
  is_paused : PyVal
  last_activity : PyVal
  active_time : PyVal
  idle_time : PyVal

/-- Result of `TimeTracker.from_dict`: int keys, unvalidated sessions. -/
structure DynTracker where
  sessions : List (Nat × DynSession)

/-- Embedding of `EditingSession.to_dict` (lines 16-25). -/
def EditingSession.to_dict (s : EditingSession) : List (String × PyVal) :=
  [("start_time", PyVal.vDatetime s.start_time),
   ("pause_time", match s.pause_time with
     | some d => PyVal.vDatetime d
     | none => PyVal.vNone),
   ("total_paused_time", PyVal.vFloat s.total_paused_time),
   ("is_paused", PyVal.vBool s.is_paused),
   ("last_activity", PyVal.vDatetime s.last_activity),
   ("active_time", PyVal.vFloat s.active_time),
   ("idle_time", PyVal.vFloat s.idle_time)]

/-- Embedding of `EditingSession.from_dict` (lines 27-37): subscripting a
missing key raises `KeyError`; the three `.get` calls default
`last_activity` to `datetime.now()` and the two durations to `0.0`;
subscripting a non-dict raises `TypeError`; values are stored unchecked. -/
def EditingSession.from_dict (data : PyVal) (now : ℚ) : Except PyErr DynSession :=
  match data with
  | PyVal.vDict l =>
      match dictGet l "start_time" with
      | none => Except.error (PyErr.keyError "start_time")
      | some v1 =>
      match dictGet l "pause_time" with
      | none => Except.error (PyErr.keyError "pause_time")
      | some v2 =>
      match dictGet l "total_paused_time" with
      | none => Except.error (PyErr.keyError "total_paused_time")
      | some v3 =>
      match dictGet l "is_paused" with
      | none => Except.error (PyErr.keyError "is_paused")
      | some v4 =>
        Except.ok
          { start_time := v1
            pause_time := v2
            total_paused_time := v3
            is_paused := v4
            last_activity := (dictGet l "last_activity").getD (PyVal.vDatetime now)
            active_time := (dictGet l "active_time").getD (PyVal.vFloat 0)
            idle_time := (dictGet l "idle_time").getD (PyVal.vFloat 0) }
  | _ => Except.error (PyErr.typeError "session object is not subscriptable")

/-- Embedding of `TimeTracker.to_dict` (lines 117-123): keys are stringified
with Python `str`, values serialized per session. -/
def TimeTracker.to_dict (t : TimeTracker) : List (String × PyVal) :=
  [("sessions", PyVal.vDict (t.sessions.map fun p =>
    (Nat.repr p.1, PyVal.vDict (EditingSession.to_dict p.2))))]

/-- Python `int(k)` applied to a snapshot key; raises `ValueError` when the
string is not a numeral (segment ids are non-negative integers). -/
def pyIntOfKey (k : String) : Except PyErr Nat :=
  match String.toNat? k with
  | some n => Except.ok n
  | none => Except.error (PyErr.valueError k)

/-- The dict comprehension of `TimeTracker.from_dict` (lines 130-133):
for each item, convert the key with `int` and the value with
`EditingSession.from_dict`, propagating the first exception raised. -/
def parseSessions (l : List (String × PyVal)) (now : ℚ) :
    Except PyErr (List (Nat × DynSession)) :=
  match l with
  | [] => Except.ok []
  | (k, v) :: rest =>
      match pyIntOfKey k with
      | Except.error e => Except.error e
      | Except.ok n =>
      match EditingSession.from_dict v now with
      | Except.error e => Except.error e
      | Except.ok s =>
      match parseSessions rest now with
      | Except.error e => Except.error e
      | Except.ok rest2 => Except.ok ((n, s) :: rest2)

/-- Embedding of `TimeTracker.from_dict` (lines 125-134).  The guard
`if data and 'sessions' in data:` skips a `None` snapshot (`none` here),
an empty dict, and a dict without the `sessions` key, returning the empty
tracker built by the constructor; calling `.items()` on a non-dict value
raises `AttributeError`. -/
def TimeTracker.from_dict (data : Option (List (String × PyVal))) (now : ℚ) :
    Except PyErr DynTracker :=
  match data with
  | none => Except.ok ⟨[]⟩
  | some l =>
      if l.isEmpty then Except.ok ⟨[]⟩
      else
        match dictGet l "sessions" with
        | none => Except.ok ⟨[]⟩
        | some (PyVal.vDict sess) =>
            match parseSessions sess now with
            | Except.error e => Except.error e
            | Except.ok ps => Except.ok ⟨ps⟩
        | some _ => Except.error (PyErr.attributeError "items")

/-- The dynamically-typed image of a well-typed session (what `from_dict`
produces when every snapshot value has the type `to_dict` writes). -/
def EditingSession.toDyn (s : EditingSession) : DynSession :=
  { start_time := PyVal.vDatetime s.start_time
    pause_time := match s.pause_time with
      | some d => PyVal.vDatetime d
      | none => PyVal.vNone
    total_paused_time := PyVal.vFloat s.total_paused_time
    is_paused := PyVal.vBool s.is_paused
    last_activity := PyVal.vDatetime s.last_activity
    active_time := PyVal.vFloat s.active_time
    idle_time := PyVal.vFloat s.idle_time }

/-- Read a well-typed session back out of a dynamic one (fails when any
field holds a value of the wrong type). -/
def DynSession.toTyped (d : DynSession) : Option EditingSession :=
  match d.start_time, d.pause_time, d.total_paused_time, d.is_paused,
      d.last_activity, d.active_time, d.idle_time with
  | PyVal.vDatetime st, PyVal.vNone, PyVal.vFloat tp, PyVal.vBool ip,
      PyVal.vDatetime la, PyVal.vFloat av, PyVal.vFloat idl =>
      some ⟨st, none, tp, ip, la, av, idl⟩
  | PyVal.vDatetime st, PyVal.vDatetime pt, PyVal.vFloat tp, PyVal.vBool ip,
      PyVal.vDatetime la, PyVal.vFloat av, PyVal.vFloat idl =>
      some ⟨st, some pt, tp, ip, la, av, idl⟩
  | _, _, _, _, _, _, _ => none

/-- The dynamically-typed image of a well-typed tracker. -/
def TimeTracker.toDyn (t : TimeTracker) : DynTracker :=
  ⟨t.sessions.map fun p => (p.1, p.2.toDyn)⟩

/-- Read well-typed sessions back out of a list of dynamic ones. -/
def sessionsToTyped : List (Nat × DynSession) → Option (List (Nat × EditingSession))
  | [] => some []
  | p :: rest =>
      match p.2.toTyped, sessionsToTyped rest with
      | some s, some rest2 => some ((p.1, s) :: rest2)
      | _, _ => none

/-- Read a well-typed tracker back out of a dynamic one. -/
def DynTracker.toTyped (d : DynTracker) : Option TimeTracker :=
  (sessionsToTyped d.sessions).map TimeTracker.mk

/-!
Predicates used by the invariant and monotonicity claims.
-/

/-- All timestamps of a session are at or before the instant `c`. -/
def sessTimeLE (s : EditingSession) (c : ℚ) : Prop :=
  s.last_activity ≤ c ∧ s.pause_time.getD c ≤ c

/-- All timestamps of all sessions are at or before the instant `c`. -/
def trackerTimeLE (t : TimeTracker) (c : ℚ) : Prop :=
  ∀ p ∈ t.sessions, sessTimeLE p.2 c

/-- The three accumulated durations of the first session never exceed those
of the second (the order in which the monotonicity claim compares a session
before and after further operations). -/
def sessLE (s s2 : EditingSession) : Prop :=
  s.active_time ≤ s2.active_time ∧ s.idle_time ≤ s2.idle_time ∧
    s.total_paused_time ≤ s2.total_paused_time

/-- The documented per-session invariant: non-negative accumulators and a
pause timestamp exactly while paused. -/
def goodSession (s : EditingSession) : Prop :=
  0 ≤ s.active_time ∧ 0 ≤ s.idle_time ∧ 0 ≤ s.total_paused_time ∧
    (s.is_paused = true ↔ s.pause_time ≠ none)

/-- Every session of the tracker satisfies the documented invariant. -/
def goodTracker (t : TimeTracker) : Prop :=
  ∀ p ∈ t.sessions, goodSession p.2

/-- What one operation run at instant `n` guarantees: the new state keeps
all timestamps at or before `n`, every session present before is still
present with accumulators at least as large, and the documented invariant
is preserved. -/
def opSpec (t t2 : TimeTracker) (n : ℚ) : Prop :=
  trackerTimeLE t2 n ∧
  (∀ j s0, lookupSession t.sessions j = some s0 →
    ∃ s2, lookupSession t2.sessions j = some s2 ∧ sessLE s0 s2) ∧
  (goodTracker t → goodTracker t2)

/-- The instant of the last operation of the list (`c` when empty). -/
def endTime (c : ℚ) : List Op → ℚ
  | [] => c
  | o :: rest => endTime o.time rest

/-!
Helper lemmas: correctness of the decimal key round trip
(Python `int(str(k)) = k` for a non-negative `k`).
-/

theorem digitChar_val : ∀ d : Nat, d < 10 → (Nat.digitChar d).toNat - '0'.toNat = d := by
  decide

theorem digitChar_isDigit : ∀ d : Nat, d < 10 → (Nat.digitChar d).isDigit = true := by
  decide

theorem toDigitsCore_eq (fuel : Nat) : ∀ (n : Nat) (ds : List Char), 0 < n → n < fuel →
    Nat.toDigitsCore 10 fuel n ds = ((Nat.digits 10 n).map Nat.digitChar).reverse ++ ds := by
  induction fuel with
  | zero => intro n ds _ h; omega
  | succ fuel ih =>
    intro n ds hn hlt
    rw [Nat.toDigitsCore]
    by_cases hdiv : n / 10 = 0
    · rw [if_pos hdiv]
      rw [Nat.digits_def' (by norm_num : (1:Nat) < 10) hn]
      have h0 : Nat.digits 10 (n / 10) = [] := by rw [hdiv]; simp
      rw [h0]
      simp
    · rw [if_neg hdiv]
      have hlt' : n / 10 < fuel := by
        have := Nat.div_lt_self hn (by norm_num : 1 < 10)
        omega
      rw [ih (n / 10) (Nat.digitChar (n % 10) :: ds) (Nat.pos_of_ne_zero hdiv) hlt']
      rw [Nat.digits_def' (by norm_num : (1:Nat) < 10) hn]
      simp

theorem foldl_digitChars (l : List Nat) : ∀ a : Nat, (∀ d ∈ l, d < 10) →
    List.foldl (fun n c => n * 10 + (Char.toNat c - Char.toNat '0')) a
      ((l.map Nat.digitChar).reverse) = a * 10 ^ l.length + Nat.ofDigits 10 l := by
  induction l with
  | nil => intro a _; simp
  | cons d l ih =>
    intro a hd
    simp only [List.map_cons, List.reverse_cons, List.foldl_append, List.foldl_cons,
      List.foldl_nil]
    rw [ih a (fun x hx => hd x (List.mem_cons_of_mem _ hx))]
    rw [digitChar_val d (hd d (List.mem_cons_self _ _))]
    rw [Nat.ofDigits_cons, List.length_cons, pow_succ]
    ring

theorem toNat?_asString (L : List Char) (hne : L ≠ []) (hall : ∀ c ∈ L, c.isDigit = true) :
    String.toNat? (List.asString L) =
      some (L.foldl (fun n c => n * 10 + (c.toNat - '0'.toNat)) 0) := by
  have hdata : (List.asString L).data = L := rfl
  have hempty : (List.asString L).isEmpty = false := by
    rw [Bool.eq_false_iff]
    intro h
    exact hne (congrArg String.data ((String.isEmpty_iff _).mp h))
  have hisnat : (List.asString L).isNat = true := by
    rw [String.isNat, hempty]
    simp only [Bool.not_false, Bool.true_and]
    rw [String.all_eq]
    exact List.all_eq_true.mpr hall
  rw [String.toNat?, if_pos hisnat, String.foldl_eq, hdata]

theorem toNat?_repr (n : Nat) : String.toNat? (Nat.repr n) = some n := by
  rcases Nat.eq_zero_or_pos n with h0 | hp
  · subst h0
    have h1 : Nat.repr 0 = List.asString ['0'] := rfl
    rw [h1, toNat?_asString ['0'] (by simp) (by decide)]
    decide
  · have h1 : Nat.repr n = List.asString ((Nat.digits 10 n).map Nat.digitChar).reverse := by
      rw [Nat.repr, Nat.toDigits, toDigitsCore_eq (n + 1) n [] hp (Nat.lt_succ_self n),
        List.append_nil]
    rw [h1]
    have hall : ∀ c ∈ ((Nat.digits 10 n).map Nat.digitChar).reverse, c.isDigit = true := by
      intro c hc
      rw [List.mem_reverse, List.mem_map] at hc
      obtain ⟨d, hd, rfl⟩ := hc
      exact digitChar_isDigit d (Nat.digits_lt_base (by norm_num) hd)
    have hne : ((Nat.digits 10 n).map Nat.digitChar).reverse ≠ [] := by
      simp [Nat.digits_ne_nil_iff_ne_zero]
      omega
    rw [toNat?_asString _ hne hall,
      foldl_digitChars (Nat.digits 10 n) 0 (fun d hd => Nat.digits_lt_base (by norm_num) hd)]
    simp [Nat.ofDigits_digits]

/-!
Helper lemmas: the snapshot round trip on well-typed trackers.
-/

theorem from_dict_toDyn_session (s : EditingSession) (now : ℚ) :
    EditingSession.from_dict (PyVal.vDict s.to_dict) now = Except.ok s.toDyn := by
  cases s with
  | mk st pt tp ip la av idl => cases pt <;> rfl

theorem toTyped_toDyn_session (s : EditingSession) : s.toDyn.toTyped = some s := by
  cases s with
  | mk st pt tp ip la av idl => cases pt <;> rfl

theorem parseSessions_to_dict (l : List (Nat × EditingSession)) (now : ℚ) :
    parseSessions (l.map fun p => (Nat.repr p.1, PyVal.vDict p.2.to_dict)) now =
      Except.ok (l.map fun p => (p.1, p.2.toDyn)) := by
  induction l with
  | nil => rfl
  | cons p rest ih =>
      simp only [List.map_cons, parseSessions, pyIntOfKey, toNat?_repr,
        from_dict_toDyn_session, ih]

theorem from_dict_to_dict_tracker (t : TimeTracker) (now : ℚ) :
    TimeTracker.from_dict (some t.to_dict) now = Except.ok t.toDyn := by
  have h1 : TimeTracker.from_dict (some t.to_dict) now =
      match parseSessions (t.sessions.map fun p =>
        (Nat.repr p.1, PyVal.vDict p.2.to_dict)) now with
      | Except.error e => Except.error e
      | Except.ok ps => Except.ok ⟨ps⟩ := rfl
  rw [h1, parseSessions_to_dict]
  rfl

theorem sessionsToTyped_toDyn (l : List (Nat × EditingSession)) :
    sessionsToTyped (l.map fun p => (p.1, p.2.toDyn)) = some l := by
  induction l with
  | nil => rfl
  | cons p rest ih =>
      rw [List.map_cons, sessionsToTyped, toTyped_toDyn_session, ih]

theorem toTyped_toDyn_tracker (t : TimeTracker) : t.toDyn.toTyped = some t := by
  cases t with
  | mk l =>
      rw [TimeTracker.toDyn, DynTracker.toTyped]
      simp only [sessionsToTyped_toDyn]
      rfl

/-!
Helper lemmas about the association-list dict.
-/

theorem lookupSession_mem {l : List (Nat × EditingSession)} {j : Nat} {s : EditingSession}
    (h : lookupSession l j = some s) : (j, s) ∈ l := by
  induction l with
  | nil => simp [lookupSession] at h
  | cons p rest ih =>
      cases p with
      | mk k v =>
          rw [lookupSession] at h
          by_cases hk : k = j
          · rw [if_pos hk] at h
            cases h
            subst hk
            exact List.mem_cons_self _ _
          · rw [if_neg hk] at h
            exact List.mem_cons_of_mem _ (ih h)

theorem lookupSession_append (l1 l2 : List (Nat × EditingSession)) (j : Nat) :
    lookupSession (l1 ++ l2) j = (lookupSession l1 j).or (lookupSession l2 j) := by
  induction l1 with
  | nil => simp [lookupSession]
  | cons p rest ih =>
      cases p with
      | mk k v =>
          rw [List.cons_append, lookupSession, lookupSession]
          by_cases hk : k = j
          · simp [hk]
          · simp [hk, ih]

theorem updateSession_cons (k : Nat) (v : EditingSession) (rest : List (Nat × EditingSession))
    (i : Nat) (f : EditingSession → EditingSession) :
    updateSession ((k, v) :: rest) i f =
      (if k = i then (k, f v) else (k, v)) :: updateSession rest i f := rfl

theorem lookupSession_cons (k : Nat) (v : EditingSession) (rest : List (Nat × EditingSession))
    (j : Nat) :
    lookupSession ((k, v) :: rest) j = if k = j then some v else lookupSession rest j := rfl

theorem lookupSession_update_self (l : List (Nat × EditingSession)) (i : Nat)
    (f : EditingSession → EditingSession) :
    lookupSession (updateSession l i f) i = (lookupSession l i).map f := by
  induction l with
  | nil => rfl
  | cons p rest ih =>
      cases p with
      | mk k v =>
          rw [updateSession_cons]
          by_cases hk : k = i
          · rw [if_pos hk, lookupSession_cons, lookupSession_cons, if_pos hk, if_pos hk]
            rfl
          · rw [if_neg hk, lookupSession_cons, lookupSession_cons, if_neg hk, if_neg hk, ih]

theorem lookupSession_update_other (l : List (Nat × EditingSession)) (i j : Nat)
    (f : EditingSession → EditingSession) (hji : j ≠ i) :
    lookupSession (updateSession l i f) j = lookupSession l j := by
  induction l with
  | nil => rfl
  | cons p rest ih =>
      cases p with
      | mk k v =>
          rw [updateSession_cons]
          by_cases hk : k = i
          · subst hk
            rw [if_pos rfl, lookupSession_cons, lookupSession_cons,
              if_neg (fun h => hji h.symm), if_neg (fun h => hji h.symm), ih]
          · rw [if_neg hk, lookupSession_cons, lookupSession_cons]
            by_cases hkj : k = j
            · rw [if_pos hkj, if_pos hkj]
            · rw [if_neg hkj, if_neg hkj, ih]

theorem mem_updateSession {l : List (Nat × EditingSession)} {i : Nat}
    {f : EditingSession → EditingSession} {p : Nat × EditingSession}
    (hp : p ∈ updateSession l i f) :
    p ∈ l ∨ ∃ q ∈ l, p = (q.1, f q.2) := by
  rw [updateSession, List.mem_map] at hp
  obtain ⟨q, hq, hpe⟩ := hp
  by_cases h : q.1 = i
  · right
    exact ⟨q, hq, by rw [← hpe, if_pos h]⟩
  · left
    rw [← hpe, if_neg h]
    exact hq

/-!
Helper lemmas about the time-bound, growth and goodness predicates.
-/

theorem sessLE_refl (s : EditingSession) : sessLE s s :=
  ⟨le_refl _, le_refl _, le_refl _⟩

theorem sessLE_trans {a b c : EditingSession} (h1 : sessLE a b) (h2 : sessLE b c) :
    sessLE a c :=
  ⟨le_trans h1.1 h2.1, le_trans h1.2.1 h2.2.1, le_trans h1.2.2 h2.2.2⟩

theorem sessTimeLE_mono {s : EditingSession} {c c2 : ℚ} (hcc : c ≤ c2)
    (h : sessTimeLE s c) : sessTimeLE s c2 := by
  obtain ⟨h1, h2⟩ := h
  refine ⟨le_trans h1 hcc, ?_⟩
  cases hpt : s.pause_time with
  | none => simp [Option.getD]
  | some pt =>
      rw [hpt] at h2
      simpa using le_trans (by simpa using h2) hcc

theorem trackerTimeLE_mono {t : TimeTracker} {c c2 : ℚ} (hcc : c ≤ c2)
    (h : trackerTimeLE t c) : trackerTimeLE t c2 :=
  fun p hp => sessTimeLE_mono hcc (h p hp)

/-- Behaviour of replacing the session found under key `i` by a new record
`ns`: time bounds, growth and goodness all propagate. -/
theorem update_spec (t : TimeTracker) (i : Nat) (n : ℚ) (s ns : EditingSession)
    (hlook : lookupSession t.sessions i = some s)
    (ht : trackerTimeLE t n)
    (hts : sessTimeLE ns n) (hle : sessLE s ns)
    (hgood : goodTracker t → goodSession ns) :
    opSpec t ⟨updateSession t.sessions i fun _ => ns⟩ n := by
  refine ⟨?_, ?_, ?_⟩
  · intro p hp
    have hp2 : p ∈ updateSession t.sessions i fun _ => ns := hp
    rcases mem_updateSession hp2 with hin | ⟨q, _, rfl⟩
    · exact ht p hin
    · exact hts
  · intro j s0 h0
    by_cases hji : j = i
    · subst hji
      rw [h0] at hlook
      cases hlook
      refine ⟨ns, ?_, hle⟩
      rw [lookupSession_update_self, h0]
      rfl
    · exact ⟨s0, by rw [lookupSession_update_other _ _ _ _ hji]; exact h0, sessLE_refl s0⟩
  · intro hg p hp
    have hp2 : p ∈ updateSession t.sessions i fun _ => ns := hp
    rcases mem_updateSession hp2 with hin | ⟨q, _, rfl⟩
    · exact hg p hin
    · exact hgood hg

/-- Behaviour of an operation that leaves the tracker unchanged. -/
theorem id_spec (t : TimeTracker) (n : ℚ) (ht : trackerTimeLE t n) :
    opSpec t t n :=
  ⟨ht, fun _ s0 h0 => ⟨s0, h0, sessLE_refl s0⟩, id⟩

/-!
Per-operation behaviour lemmas.
-/

theorem start_spec (t : TimeTracker) (i : Nat) (n : ℚ) (ht : trackerTimeLE t n) :
    opSpec t (t.start_segment i n) n := by
  rw [TimeTracker.start_segment]
  cases hl : lookupSession t.sessions i with
  | some s => exact id_spec t n ht
  | none =>
      refine ⟨?_, ?_, ?_⟩
      · intro p hp
        have hp2 : p ∈ t.sessions ++
            [(i, ⟨n, none, 0, false, n, 0, 0⟩)] := hp
        rcases List.mem_append.mp hp2 with h | h
        · exact ht p h
        · rw [List.mem_singleton] at h
          subst h
          exact ⟨le_refl n, le_refl n⟩
      · intro j s0 h0
        refine ⟨s0, ?_, sessLE_refl s0⟩
        have : lookupSession (t.sessions ++ [(i, ⟨n, none, 0, false, n, 0, 0⟩)]) j =
            some s0 := by
          rw [lookupSession_append, h0]
          rfl
        exact this
      · intro hg p hp
        have hp2 : p ∈ t.sessions ++
            [(i, ⟨n, none, 0, false, n, 0, 0⟩)] := hp
        rcases List.mem_append.mp hp2 with h | h
        · exact hg p h
        · rw [List.mem_singleton] at h
          subst h
          exact ⟨le_refl 0, le_refl 0, le_refl 0, by simp [goodSession]⟩

theorem pause_spec (t : TimeTracker) (i : Nat) (n : ℚ) (ht : trackerTimeLE t n) :
    opSpec t (t.pause_segment i n) n := by
  rw [TimeTracker.pause_segment]
  cases hl : lookupSession t.sessions i with
  | none => exact id_spec t n ht
  | some s =>
      dsimp only
      have hts : sessTimeLE s n := ht _ (lookupSession_mem hl)
      have hgs : goodTracker t → goodSession s :=
        fun hg => hg _ (lookupSession_mem hl)
      by_cases hp : s.is_paused = true
      · rw [if_pos hp]
        exact id_spec t n ht
      · rw [if_neg hp]
        by_cases hc : n - s.last_activity ≤ IDLE_THRESHOLD
        · rw [if_pos hc]
          refine update_spec t i n s _ hl ht ⟨le_refl n, le_refl n⟩
            ⟨?_, le_refl _, le_refl _⟩
            (fun hg => ⟨?_, (hgs hg).2.1, (hgs hg).2.2.1, by simp⟩)
          · show s.active_time ≤ s.active_time + (n - s.last_activity)
            have h1 := hts.1
            linarith
          · show (0:ℚ) ≤ s.active_time + (n - s.last_activity)
            have h1 := (hgs hg).1
            have h2 := hts.1
            linarith
        · rw [if_neg hc]
          exact update_spec t i n s _ hl ht ⟨le_refl n, le_refl n⟩
            ⟨le_refl _, le_refl _, le_refl _⟩
            (fun hg => ⟨(hgs hg).1, (hgs hg).2.1, (hgs hg).2.2.1, by simp⟩)

theorem resume_spec (t : TimeTracker) (i : Nat) (n : ℚ) (ht : trackerTimeLE t n) :
    opSpec t (t.resume_segment i n) n := by
  rw [TimeTracker.resume_segment]
  cases hl : lookupSession t.sessions i with
  | none => exact id_spec t n ht
  | some s =>
      dsimp only
      have hts : sessTimeLE s n := ht _ (lookupSession_mem hl)
      have hgs : goodTracker t → goodSession s :=
        fun hg => hg _ (lookupSession_mem hl)
      by_cases hp : s.is_paused = true
      · rw [if_pos hp]
        cases hpt : s.pause_time with
        | none =>
            dsimp only
            exact update_spec t i n s _ hl ht ⟨le_refl n, le_refl n⟩
              ⟨le_refl _, le_refl _, le_refl _⟩
              (fun hg => ⟨(hgs hg).1, (hgs hg).2.1, (hgs hg).2.2.1, by simp⟩)
        | some pt =>
            dsimp only
            have hptn : pt ≤ n := by
              have h2 := hts.2
              rw [hpt] at h2
              simpa using h2
            refine update_spec t i n s _ hl ht ⟨le_refl n, le_refl n⟩
              ⟨le_refl _, le_refl _, ?_⟩
              (fun hg => ⟨(hgs hg).1, (hgs hg).2.1, ?_, by simp⟩)
            · show s.total_paused_time ≤ s.total_paused_time + (n - pt)
              linarith
            · show (0:ℚ) ≤ s.total_paused_time + (n - pt)
              have h1 := (hgs hg).2.2.1
              linarith
      · rw [if_neg hp]
        exact id_spec t n ht

theorem activity_spec (t : TimeTracker) (i : Nat) (n : ℚ) (ht : trackerTimeLE t n) :
    opSpec t (t.update_activity i n) n := by
  rw [TimeTracker.update_activity]
  cases hl : lookupSession t.sessions i with
  | none => exact id_spec t n ht
  | some s =>
      dsimp only
      have hts : sessTimeLE s n := ht _ (lookupSession_mem hl)
      have hgs : goodTracker t → goodSession s :=
        fun hg => hg _ (lookupSession_mem hl)
      by_cases hp : s.is_paused = true
      · rw [if_pos hp]
        exact update_spec t i n s _ hl ht ⟨le_refl n, hts.2⟩
          ⟨le_refl _, le_refl _, le_refl _⟩
          (fun hg => ⟨(hgs hg).1, (hgs hg).2.1, (hgs hg).2.2.1, (hgs hg).2.2.2⟩)
      · rw [if_neg hp]
        by_cases hc : n - s.last_activity > IDLE_THRESHOLD
        · rw [if_pos hc]
          refine update_spec t i n s _ hl ht ⟨le_refl n, hts.2⟩
            ⟨le_refl _, ?_, le_refl _⟩
            (fun hg => ⟨(hgs hg).1, ?_, (hgs hg).2.2.1, (hgs hg).2.2.2⟩)
          · show s.idle_time ≤ s.idle_time + (n - s.last_activity - IDLE_THRESHOLD)
            linarith
          · show (0:ℚ) ≤ s.idle_time + (n - s.last_activity - IDLE_THRESHOLD)
            have h1 := (hgs hg).2.1
            linarith
        · rw [if_neg hc]
          refine update_spec t i n s _ hl ht ⟨le_refl n, hts.2⟩
            ⟨?_, le_refl _, le_refl _⟩
            (fun hg => ⟨?_, (hgs hg).2.1, (hgs hg).2.2.1, (hgs hg).2.2.2⟩)
          · show s.active_time ≤ s.active_time + (n - s.last_activity)
            have h1 := hts.1
            linarith
          · show (0:ℚ) ≤ s.active_time + (n - s.last_activity)
            have h1 := (hgs hg).1
            have h2 := hts.1
            linarith

theorem checkIdle_spec (t : TimeTracker) (i : Nat) (n : ℚ) (ht : trackerTimeLE t n) :
    opSpec t (t.check_idle_time i n) n := by
  rw [TimeTracker.check_idle_time]
  cases hl : lookupSession t.sessions i with
  | none => exact id_spec t n ht
  | some s =>
      dsimp only
      have hts : sessTimeLE s n := ht _ (lookupSession_mem hl)
      have hgs : goodTracker t → goodSession s :=
        fun hg => hg _ (lookupSession_mem hl)
      by_cases hp : s.is_paused = true
      · rw [if_pos hp]
        exact id_spec t n ht
      · rw [if_neg hp]
        by_cases hc : n - s.last_activity > IDLE_THRESHOLD
        · rw [if_pos hc]
          by_cases hni : n - s.last_activity - IDLE_THRESHOLD > s.idle_time
          · rw [if_pos hni]
            refine update_spec t i n s _ hl ht ⟨hts.1, hts.2⟩
              ⟨le_refl _, ?_, le_refl _⟩
              (fun hg => ⟨(hgs hg).1, ?_, (hgs hg).2.2.1, (hgs hg).2.2.2⟩)
            · show s.idle_time ≤ n - s.last_activity - IDLE_THRESHOLD
              linarith
            · show (0:ℚ) ≤ n - s.last_activity - IDLE_THRESHOLD
              have h1 := (hgs hg).2.1
              linarith
          · rw [if_neg hni]
            exact id_spec t n ht
        · rw [if_neg hc]
          exact id_spec t n ht

theorem op_spec (o : Op) (t : TimeTracker) (ht : trackerTimeLE t o.time) :
    opSpec t (Op.apply t o) o.time := by
  cases o with
  | start i n => exact start_spec t i n ht
  | pause i n => exact pause_spec t i n ht
  | resume i n => exact resume_spec t i n ht
  | activity i n => exact activity_spec t i n ht
  | checkIdle i n => exact checkIdle_spec t i n ht

/-!
Whole-sequence behaviour.
-/

theorem trackerTimeLE_empty (c : ℚ) : trackerTimeLE TimeTracker.empty c := by
  intro p hp
  simp [TimeTracker.empty] at hp

theorem goodTracker_empty : goodTracker TimeTracker.empty := by
  intro p hp
  simp [TimeTracker.empty] at hp

theorem applyOps_cons (t : TimeTracker) (o : Op) (rest : List Op) :
    applyOps t (o :: rest) = applyOps (Op.apply t o) rest := rfl

theorem applyOps_append (t : TimeTracker) (l1 l2 : List Op) :
    applyOps t (l1 ++ l2) = applyOps (applyOps t l1) l2 := by
  simp [applyOps, List.foldl_append]

theorem opsMono_cons (c : ℚ) (o : Op) (rest : List Op) :
    opsMono c (o :: rest) = (decide (c ≤ o.time) && opsMono o.time rest) := rfl

theorem opsMono_append (c : ℚ) (l1 l2 : List Op) :
    opsMono c (l1 ++ l2) = (opsMono c l1 && opsMono (endTime c l1) l2) := by
  induction l1 generalizing c with
  | nil => simp [opsMono, endTime]
  | cons o rest ih =>
      rw [List.cons_append, opsMono_cons, opsMono_cons, ih]
      cases hd : decide (c ≤ o.time) <;> simp [endTime]

theorem applyOps_spec (ops : List Op) : ∀ (t : TimeTracker) (c : ℚ),
    trackerTimeLE t c → opsMono c ops = true →
    trackerTimeLE (applyOps t ops) (endTime c ops) ∧
    c ≤ endTime c ops ∧
    (∀ j s0, lookupSession t.sessions j = some s0 →
      ∃ s2, lookupSession (applyOps t ops).sessions j = some s2 ∧ sessLE s0 s2) ∧
    (goodTracker t → goodTracker (applyOps t ops)) := by
  induction ops with
  | nil =>
      intro t c ht _
      exact ⟨ht, le_refl c, fun _ s0 h0 => ⟨s0, h0, sessLE_refl s0⟩, id⟩
  | cons o rest ih =>
      intro t c ht hm
      rw [opsMono_cons, Bool.and_eq_true, decide_eq_true_eq] at hm
      obtain ⟨hc, hm2⟩ := hm
      have ht2 : trackerTimeLE t o.time := trackerTimeLE_mono hc ht
      have hstep := op_spec o t ht2
      have hrest := ih (Op.apply t o) o.time hstep.1 hm2
      refine ⟨hrest.1, le_trans hc hrest.2.1, ?_, fun hg => hrest.2.2.2 (hstep.2.2 hg)⟩
      intro j s0 h0
      obtain ⟨s1, h1, hle1⟩ := hstep.2.1 j s0 h0
      obtain ⟨s2, h2, hle2⟩ := hrest.2.2.1 j s1 h1
      exact ⟨s2, h2, sessLE_trans hle1 hle2⟩

/-- Shared helper: on a paused session, `update_activity` rewrites the
session under the given key to the same record with `last_activity := now`
and changes nothing else in the tracker. -/
theorem update_activity_paused (t : TimeTracker) (i : Nat) (now : ℚ) (s : EditingSession)
    (hs : lookupSession t.sessions i = some s) (hp : s.is_paused = true) :
    t.update_activity i now =
      ⟨updateSession t.sessions i fun _ => { s with last_activity := now }⟩ := by
  rw [TimeTracker.update_activity, hs]
  dsimp only
  rw [if_pos hp]

/-- C1: for every tracker produced through the documented operations,
`from_snapshot(to_snapshot(t))` succeeds and reconstructs a tracker that is
field-for-field equal to `t`, hence behaviourally equivalent: any
subsequent operation sequence evaluated at the same instants yields
identical `get_editing_time` results. -/
theorem snapshot_round_trip (t : TimeTracker) (now : ℚ)
    (ops : List Op) (i : Nat) (q : ℚ) :
    ∃ d t2, TimeTracker.from_dict (some t.to_dict) now = Except.ok d ∧
      DynTracker.toTyped d = some t2 ∧
      ((applyOps t2 ops).get_editing_time i q).1 =
        ((applyOps t ops).get_editing_time i q).1 :=
  ⟨t.toDyn, t, from_dict_to_dict_tracker t now, toTyped_toDyn_tracker t, rfl⟩

/-- C2: `get_editing_time` returns 0 when no session exists, the
accumulated `active_time` when the session is paused, and otherwise credits
the open interval since `last_activity` exactly when it is within the
30-second idle threshold. -/
theorem get_editing_time_spec (t : TimeTracker) (i : Nat) (now : ℚ) :
    (lookupSession t.sessions i = none → (t.get_editing_time i now).1 = 0) ∧
    (∀ s, lookupSession t.sessions i = some s →
      (s.is_paused = true → (t.get_editing_time i now).1 = s.active_time) ∧
      (s.is_paused = false →
        (now - s.last_activity ≤ IDLE_THRESHOLD →
          (t.get_editing_time i now).1 = s.active_time + (now - s.last_activity)) ∧
        (IDLE_THRESHOLD < now - s.last_activity →
          (t.get_editing_time i now).1 = s.active_time))) := by
  constructor
  · intro h
    rw [TimeTracker.get_editing_time, h]
  · intro s hs
    rw [TimeTracker.get_editing_time, hs]
    dsimp only
    constructor
    · intro hp
      rw [if_neg (by rw [hp]; simp)]
    · intro hp
      rw [if_pos hp]
      constructor
      · intro hle
        rw [if_pos hle]
      · intro hgt
        rw [if_neg (not_le.mpr hgt)]

theorem get_editing_time_spec_witness :
    ((⟨[(1, ⟨0, none, 0, false, 0, 5, 0⟩)]⟩ : TimeTracker).get_editing_time 1 10).1 =
      5 + (10 - 0) :=
  (((get_editing_time_spec ⟨[(1, ⟨0, none, 0, false, 0, 5, 0⟩)]⟩ 1 10).2
    ⟨0, none, 0, false, 0, 5, 0⟩ rfl).2 rfl).1 (by norm_num [IDLE_THRESHOLD])

/-- C3 counterexample: on a paused session, `record_activity` is not a
no-op: it moves `last_activity` from 5 to the current instant 10. -/
theorem record_activity_paused_not_noop :
    TimeTracker.update_activity ⟨[(1, ⟨0, some 5, 0, true, 5, 5, 0⟩)]⟩ 1 10 ≠
      ⟨[(1, ⟨0, some 5, 0, true, 5, 5, 0⟩)]⟩ := by
  intro h
  have h2 : (10 : ℚ) = 5 :=
    congrArg (fun t : TimeTracker =>
      (match t.sessions with
        | [] => (0 : ℚ)
        | p :: _ => p.2.last_activity)) h
  norm_num at h2

/-- C3 amended: on a paused session, `record_activity` is a no-op except
that it sets `last_activity := now`; every other part of the state is
unchanged. -/
theorem record_activity_paused_only_touches_last_activity (t : TimeTracker) (i : Nat)
    (now : ℚ) (s : EditingSession)
    (hs : lookupSession t.sessions i = some s) (hp : s.is_paused = true) :
    t.update_activity i now =
      ⟨updateSession t.sessions i fun _ => { s with last_activity := now }⟩ :=
  update_activity_paused t i now s hs hp

theorem record_activity_paused_only_touches_last_activity_witness :
    TimeTracker.update_activity ⟨[(1, ⟨0, some 5, 0, true, 5, 5, 0⟩)]⟩ 1 10 =
      ⟨updateSession [(1, ⟨0, some 5, 0, true, 5, 5, 0⟩)] 1
        fun _ => { (⟨0, some 5, 0, true, 5, 5, 0⟩ : EditingSession) with
          last_activity := 10 }⟩ :=
  record_activity_paused_only_touches_last_activity
    ⟨[(1, ⟨0, some 5, 0, true, 5, 5, 0⟩)]⟩ 1 10 ⟨0, some 5, 0, true, 5, 5, 0⟩ rfl rfl

/-- C4: the documented scenario: start at t=0, activity at t=10
(active_time 10), pause at t=15 (active_time 15), resume at t=45
(total_paused_time goes from 0 to 30), query at t=46 returns 16. -/
theorem scenario_pause_resume_query :
    (lookupSession ((TimeTracker.empty.start_segment 1 0).update_activity 1 10).sessions
        1).map EditingSession.active_time = some 10 ∧
    (lookupSession (((TimeTracker.empty.start_segment 1 0).update_activity 1
        10).pause_segment 1 15).sessions 1).map EditingSession.active_time = some 15 ∧
    (lookupSession (((TimeTracker.empty.start_segment 1 0).update_activity 1
        10).pause_segment 1 15).sessions 1).map EditingSession.total_paused_time =
      some 0 ∧
    (lookupSession ((((TimeTracker.empty.start_segment 1 0).update_activity 1
        10).pause_segment 1 15).resume_segment 1 45).sessions 1).map
        EditingSession.total_paused_time = some (0 + 30) ∧
    (((((TimeTracker.empty.start_segment 1 0).update_activity 1 10).pause_segment 1
        15).resume_segment 1 45).get_editing_time 1 46).1 = 16 := by
  norm_num [TimeTracker.empty, TimeTracker.start_segment, TimeTracker.update_activity,
    TimeTracker.pause_segment, TimeTracker.resume_segment, TimeTracker.get_editing_time,
    lookupSession, updateSession, IDLE_THRESHOLD]

/-- C6: `get_editing_time` is side-effect-free: the state it returns is the
state it was given, so repeated queries with no intervening operations
agree. -/
theorem get_editing_time_no_mutation (t : TimeTracker) (i : Nat) (now : ℚ) :
    (t.get_editing_time i now).2 = t ∧
    (((t.get_editing_time i now).2.get_editing_time i now).1 =
      (t.get_editing_time i now).1) := by
  have h : (t.get_editing_time i now).2 = t := by
    rw [TimeTracker.get_editing_time]
    cases hl : lookupSession t.sessions i with
    | none => rfl
    | some s =>
        dsimp only
        by_cases hp : s.is_paused = false
        · rw [if_pos hp]
          by_cases hc : now - s.last_activity ≤ IDLE_THRESHOLD
          · rw [if_pos hc]
          · rw [if_neg hc]
        · rw [if_neg hp]
  exact ⟨h, by rw [h]⟩

/-- C7: in every reachable tracker state, every session has non-negative
accumulators and holds a pause timestamp exactly while paused. -/
theorem reachable_session_invariant (t : TimeTracker) (h : Reachable t) :
    ∀ p ∈ t.sessions, 0 ≤ p.2.active_time ∧ 0 ≤ p.2.idle_time ∧
      0 ≤ p.2.total_paused_time ∧ (p.2.is_paused = true ↔ p.2.pause_time ≠ none) := by
  obtain ⟨c, ops, hm, rfl⟩ := h
  exact (applyOps_spec ops TimeTracker.empty c (trackerTimeLE_empty c) hm).2.2.2
    goodTracker_empty

theorem reachable_session_invariant_witness :
    0 ≤ (⟨0, none, 0, false, 0, 0, 0⟩ : EditingSession).active_time ∧
    0 ≤ (⟨0, none, 0, false, 0, 0, 0⟩ : EditingSession).idle_time ∧
    0 ≤ (⟨0, none, 0, false, 0, 0, 0⟩ : EditingSession).total_paused_time ∧
    ((⟨0, none, 0, false, 0, 0, 0⟩ : EditingSession).is_paused = true ↔
      (⟨0, none, 0, false, 0, 0, 0⟩ : EditingSession).pause_time ≠ none) :=
  reachable_session_invariant (applyOps TimeTracker.empty [Op.start 1 0])
    ⟨0, [Op.start 1 0], by simp [opsMono, Op.time], rfl⟩
    (1, ⟨0, none, 0, false, 0, 0, 0⟩) (List.mem_singleton.mpr rfl)

/-- C10: on a paused session, `record_activity` changes at most that
session's `last_activity` (set to `now`): all other fields and all other
sessions are untouched, and `get_editing_time` results are unaffected. -/
theorem record_activity_paused_frame (t : TimeTracker) (i : Nat) (now : ℚ)
    (s : EditingSession)
    (hs : lookupSession t.sessions i = some s) (hp : s.is_paused = true) :
    (∃ s2, lookupSession (t.update_activity i now).sessions i = some s2 ∧
      s2.start_time = s.start_time ∧ s2.pause_time = s.pause_time ∧
      s2.total_paused_time = s.total_paused_time ∧ s2.is_paused = s.is_paused ∧
      s2.active_time = s.active_time ∧ s2.idle_time = s.idle_time ∧
      s2.last_activity = now) ∧
    (∀ j, j ≠ i → lookupSession (t.update_activity i now).sessions j =
      lookupSession t.sessions j) ∧
    (∀ q, ((t.update_activity i now).get_editing_time i q).1 =
      (t.get_editing_time i q).1) := by
  rw [update_activity_paused t i now s hs hp]
  refine ⟨⟨{ s with last_activity := now }, ?_, rfl, rfl, rfl, rfl, rfl, rfl, rfl⟩,
    ?_, ?_⟩
  · show lookupSession (updateSession t.sessions i fun _ =>
      { s with last_activity := now }) i = _
    rw [lookupSession_update_self, hs]
    rfl
  · intro j hj
    show lookupSession (updateSession t.sessions i fun _ =>
      { s with last_activity := now }) j = _
    rw [lookupSession_update_other _ _ _ _ hj]
  · intro q
    rw [TimeTracker.get_editing_time, TimeTracker.get_editing_time]
    show (match lookupSession (updateSession t.sessions i fun _ =>
      { s with last_activity := now }) i with
      | none => ((0 : ℚ), _)
      | some s => _).1 = _
    rw [lookupSession_update_self, hs]
    simp only [Option.map_some']
    rw [if_neg (by rw [hp]; simp), if_neg (by rw [hp]; simp)]

theorem record_activity_paused_frame_witness :
    ∃ s2, lookupSession ((TimeTracker.update_activity
      ⟨[(1, ⟨0, some 5, 0, true, 5, 5, 0⟩)]⟩ 1 10)).sessions 1 = some s2 ∧
      s2.start_time = (0 : ℚ) ∧ s2.pause_time = some 5 ∧
      s2.total_paused_time = 0 ∧ s2.is_paused = true ∧
      s2.active_time = 5 ∧ s2.idle_time = 0 ∧ s2.last_activity = 10 :=
  (record_activity_paused_frame ⟨[(1, ⟨0, some 5, 0, true, 5, 5, 0⟩)]⟩ 1 10
    ⟨0, some 5, 0, true, 5, 5, 0⟩ rfl rfl).1

/-- C5: along any operation sequence with non-decreasing timestamps run
from the empty tracker, `active_time`, `idle_time` and `total_paused_time`
of every session never decrease: any session present after a prefix is
still present after any longer prefix, with accumulators at least as
large. -/
theorem durations_monotone (ops : List Op) (c : ℚ) (h : opsMono c ops = true)
    (n m : Nat) (hnm : n ≤ m) (i : Nat) (s : EditingSession)
    (hs : lookupSession (applyOps TimeTracker.empty (ops.take n)).sessions i = some s) :
    ∃ s2, lookupSession (applyOps TimeTracker.empty (ops.take m)).sessions i = some s2 ∧
      s.active_time ≤ s2.active_time ∧ s.idle_time ≤ s2.idle_time ∧
      s.total_paused_time ≤ s2.total_paused_time := by
  have hnm2 : n + (m - n) = m := by omega
  have hsplit : ops.take m = ops.take n ++ ((ops.drop n).take (m - n)) := by
    conv_lhs => rw [← hnm2]
    exact List.take_add ops n (m - n)
  have hm0 : opsMono c (ops.take m ++ ops.drop m) = true := by
    rw [List.take_append_drop]
    exact h
  rw [opsMono_append, Bool.and_eq_true] at hm0
  have hm1 := hm0.1
  rw [hsplit, opsMono_append, Bool.and_eq_true] at hm1
  have base := applyOps_spec (ops.take n) TimeTracker.empty c
    (trackerTimeLE_empty c) hm1.1
  have step2 := applyOps_spec ((ops.drop n).take (m - n))
    (applyOps TimeTracker.empty (ops.take n)) (endTime c (ops.take n)) base.1 hm1.2
  obtain ⟨s2, hs2, hle⟩ := step2.2.2.1 i s hs
  rw [hsplit, applyOps_append]
  exact ⟨s2, hs2, hle.1, hle.2.1, hle.2.2⟩

theorem durations_monotone_witness :
    ∃ s2, lookupSession (applyOps TimeTracker.empty
        ([Op.start 1 0, Op.activity 1 1].take 2)).sessions 1 = some s2 ∧
      (⟨0, none, 0, false, 0, 0, 0⟩ : EditingSession).active_time ≤ s2.active_time ∧
      (⟨0, none, 0, false, 0, 0, 0⟩ : EditingSession).idle_time ≤ s2.idle_time ∧
      (⟨0, none, 0, false, 0, 0, 0⟩ : EditingSession).total_paused_time ≤
        s2.total_paused_time :=
  durations_monotone [Op.start 1 0, Op.activity 1 1] 0
    (by simp only [opsMono, Op.time, Bool.and_eq_true, decide_eq_true_eq]; norm_num)
    1 2 (by norm_num) 1 ⟨0, none, 0, false, 0, 0, 0⟩ rfl

/-- C8: `from_snapshot` returns the empty tracker on a missing or empty
snapshot, and on an older-schema session object missing `last_activity`,
`active_time` or `idle_time` it defaults them to `now`, `0` and `0` while
taking the four present fields unchanged from the snapshot. -/
theorem from_snapshot_tolerant (now : ℚ) :
    TimeTracker.from_dict none now = Except.ok ⟨[]⟩ ∧
    TimeTracker.from_dict (some []) now = Except.ok ⟨[]⟩ ∧
    (∀ l v1 v2 v3 v4,
      dictGet l "start_time" = some v1 →
      dictGet l "pause_time" = some v2 →
      dictGet l "total_paused_time" = some v3 →
      dictGet l "is_paused" = some v4 →
      dictGet l "last_activity" = none →
      dictGet l "active_time" = none →
      dictGet l "idle_time" = none →
      EditingSession.from_dict (PyVal.vDict l) now =
        Except.ok ⟨v1, v2, v3, v4, PyVal.vDatetime now, PyVal.vFloat 0,
          PyVal.vFloat 0⟩) := by
  refine ⟨rfl, rfl, ?_⟩
  intro l v1 v2 v3 v4 h1 h2 h3 h4 h5 h6 h7
  simp only [EditingSession.from_dict, h1, h2, h3, h4, h5, h6, h7, Option.getD_none]

theorem from_snapshot_tolerant_witness :
    EditingSession.from_dict (PyVal.vDict
      [("start_time", PyVal.vDatetime 1), ("pause_time", PyVal.vNone),
       ("total_paused_time", PyVal.vFloat 2), ("is_paused", PyVal.vBool false)]) 99 =
      Except.ok ⟨PyVal.vDatetime 1, PyVal.vNone, PyVal.vFloat 2, PyVal.vBool false,
        PyVal.vDatetime 99, PyVal.vFloat 0, PyVal.vFloat 0⟩ :=
  (from_snapshot_tolerant 99).2.2
    [("start_time", PyVal.vDatetime 1), ("pause_time", PyVal.vNone),
     ("total_paused_time", PyVal.vFloat 2), ("is_paused", PyVal.vBool false)]
    (PyVal.vDatetime 1) PyVal.vNone (PyVal.vFloat 2) (PyVal.vBool false)
    rfl rfl rfl rfl rfl rfl rfl

/-- C9 counterexample: a snapshot whose session carries a wrongly-typed
`start_time` (the string "oops") is deserialized without any error; the
corrupted value is stored as-is in the reconstructed tracker. -/
theorem wrong_typed_snapshot_accepted :
    TimeTracker.from_dict
      (some [("sessions", PyVal.vDict [("1", PyVal.vDict
        [("start_time", PyVal.vStr "oops"), ("pause_time", PyVal.vNone),
         ("total_paused_time", PyVal.vFloat 0), ("is_paused", PyVal.vBool false)])])])
      100 =
    Except.ok ⟨[(1, ⟨PyVal.vStr "oops", PyVal.vNone, PyVal.vFloat 0, PyVal.vBool false,
      PyVal.vDatetime 100, PyVal.vFloat 0, PyVal.vFloat 0⟩)]⟩ := by
  have hk : pyIntOfKey "1" = Except.ok 1 := by
    rw [pyIntOfKey, show ("1" : String) = Nat.repr 1 from rfl, toNat?_repr]
  have hsess : EditingSession.from_dict (PyVal.vDict
      [("start_time", PyVal.vStr "oops"), ("pause_time", PyVal.vNone),
       ("total_paused_time", PyVal.vFloat 0), ("is_paused", PyVal.vBool false)]) 100 =
      Except.ok ⟨PyVal.vStr "oops", PyVal.vNone, PyVal.vFloat 0, PyVal.vBool false,
        PyVal.vDatetime 100, PyVal.vFloat 0, PyVal.vFloat 0⟩ := rfl
  have houter : TimeTracker.from_dict
      (some [("sessions", PyVal.vDict [("1", PyVal.vDict
        [("start_time", PyVal.vStr "oops"), ("pause_time", PyVal.vNone),
         ("total_paused_time", PyVal.vFloat 0), ("is_paused", PyVal.vBool false)])])])
      100 =
      match parseSessions [("1", PyVal.vDict
        [("start_time", PyVal.vStr "oops"), ("pause_time", PyVal.vNone),
         ("total_paused_time", PyVal.vFloat 0), ("is_paused", PyVal.vBool false)])]
        100 with
      | Except.error e => Except.error e
      | Except.ok ps => Except.ok ⟨ps⟩ := rfl
  rw [houter]
  simp only [parseSessions, hk, hsess]

/-- C9 amended: deserialization does fail fast, with a `KeyError` naming
the missing key, whenever a session object lacks one of the four required
fields; wrongly-typed field values, in contrast, are not detected. -/
theorem from_snapshot_missing_required (l : List (String × PyVal)) (now : ℚ)
    (h : dictGet l "start_time" = none ∨ dictGet l "pause_time" = none ∨
      dictGet l "total_paused_time" = none ∨ dictGet l "is_paused" = none) :
    ∃ k, EditingSession.from_dict (PyVal.vDict l) now =
      Except.error (PyErr.keyError k) ∧ dictGet l k = none := by
  cases h1 : dictGet l "start_time" with
  | none =>
      exact ⟨"start_time", by simp only [EditingSession.from_dict, h1], h1⟩
  | some v1 =>
      cases h2 : dictGet l "pause_time" with
      | none =>
          exact ⟨"pause_time", by simp only [EditingSession.from_dict, h1, h2], h2⟩
      | some v2 =>
          cases h3 : dictGet l "total_paused_time" with
          | none =>
              exact ⟨"total_paused_time",
                by simp only [EditingSession.from_dict, h1, h2, h3], h3⟩
          | some v3 =>
              cases h4 : dictGet l "is_paused" with
              | none =>
                  exact ⟨"is_paused",
                    by simp only [EditingSession.from_dict, h1, h2, h3, h4], h4⟩
              | some v4 =>
                  rcases h with h | h | h | h
                  · rw [h] at h1; exact Option.noConfusion h1
                  · rw [h] at h2; exact Option.noConfusion h2
                  · rw [h] at h3; exact Option.noConfusion h3
                  · rw [h] at h4; exact Option.noConfusion h4

theorem from_snapshot_missing_required_witness :
    ∃ k, EditingSession.from_dict (PyVal.vDict []) 0 =
      Except.error (PyErr.keyError k) ∧ dictGet [] k = none :=
  from_snapshot_missing_required [] 0 (Or.inl rfl)
